import Mathlib

/-!
Shallow embedding of the leave-hour calculation engine and the request
store of the HRM attendance portal.

Conventions of the embedding:

* Timestamps are modelled as natural numbers of minutes since the epoch
  1970-01-01 00:00 in the business time zone (Asia/Taipei); all the
  date/time strings handled by the source are at minute granularity
  (the forms produce `YYYY-MM-DD HH:mm` values).  The epoch day
  1970-01-01 is a Thursday, so the weekday of day index `d` is
  `(d + 4) % 7` with `0` = Sunday and `6` = Saturday, matching
  JavaScript `Date.getDay()`.
* The `string | empty` inputs of `calculateLeaveHours` are modelled as
  `Option Nat`: `none` stands for the empty string (the source's
  `if (!startStr || !endStr) return 0` guard), `some t` for a parseable
  timestamp of `t` minutes.
* A holiday's `date` field is stored as the business-time-zone calendar
  day index (the source normalises it with `getTaiwanDate` before every
  comparison), and all day boundaries are taken in that single zone, as
  the spec requires of the intended behaviour.
* Millisecond durations of the source are divided by 60000 throughout:
  one day is 1440 minutes, the work window 08:30–17:30 becomes the
  minute offsets [510, 1050), the lunch window 12:00–13:00 the offsets
  [720, 780).
-/

namespace HRM

/-- Weekday of day index `d` (days since 1970-01-01, a Thursday), in
JavaScript `Date.getDay()` numbering: 0 = Sunday, …, 6 = Saturday. -/
def dayOfWeek (d : Nat) : Nat := (d + 4) % 7

/-- A holiday calendar entry (`types.ts` `Holiday`); `date` is the
business-time-zone calendar day index and `note` the free-text label. -/
structure Holiday where
  id : Nat
  date : Nat
  note : String := ""
deriving DecidableEq, Repr

/-- Embeds the `isHoli` test of `TimeService.calculateLeaveHours`
(src/services/timeService.ts line 251): the current day is non-working
when some holiday's Taiwan calendar date equals it, or it is a Sunday
(`getDay() === 0`) or a Saturday (`getDay() === 6`). -/
def dayIsHoli (holidays : List Holiday) (d : Nat) : Bool :=
  holidays.any (fun h => h.date == d) || dayOfWeek d == 0 || dayOfWeek d == 6

/-- Embeds one iteration body of the day-walk loop of
`TimeService.calculateLeaveHours` (src/services/timeService.ts lines
247-274): the minutes contributed by calendar day `d` to the span
`[s, e)`.  Non-working days contribute 0; otherwise the span is
intersected with the day's work window [08:30, 17:30) and the overlap
with the lunch window [12:00, 13:00) is subtracted.  The source's final
`if (duration > 0)` guard is the identity here: the lunch overlap is
always contained in the segment, so the subtraction never goes below
zero (truncated subtraction on `Nat` agrees with the source). -/
def dayMinutes (s e : Nat) (holidays : List Holiday) (d : Nat) : Nat :=
  if dayIsHoli holidays d then 0
  else
    let segmentStart := max s (d * 1440 + 510)
    let segmentEnd := min e (d * 1440 + 1050)
    if segmentStart < segmentEnd then
      let lunchSegStart := max segmentStart (d * 1440 + 720)
      let lunchSegEnd := min segmentEnd (d * 1440 + 780)
      if lunchSegStart < lunchSegEnd then
        segmentEnd - segmentStart - (lunchSegEnd - lunchSegStart)
      else
        segmentEnd - segmentStart
    else 0

/-- Embeds the `while (current < e)` day-walk of
`TimeService.calculateLeaveHours` (src/services/timeService.ts lines
246-278) as a fuel-indexed loop: each iteration adds the current day's
contribution and advances `current` to the next midnight
(`current.setDate(getDate()+1); current.setHours(0,0,0,0)`), i.e. to
`(current / 1440 + 1) * 1440` minutes.  The fuel only bounds the number
of iterations; `calcLoop_fuel_congr` shows that any fuel of at least
one unit per calendar day remaining in the span computes the loop's
true value, so the fuel chosen in `calculateLeaveHours` (the exact
number of days the while loop visits) is sufficient. -/
def calcLoop (s e : Nat) (holidays : List Holiday) : Nat → Nat → Nat
  | 0, _ => 0
  | fuel + 1, current =>
      if current < e then
        dayMinutes s e holidays (current / 1440) +
          calcLoop s e holidays fuel ((current / 1440 + 1) * 1440)
      else 0

/-- Embeds the final rounding of `TimeService.calculateLeaveHours`
(src/services/timeService.ts lines 280-281): with `m` accumulated
minutes, the source computes `Math.round((m / 60) * 2) / 2` hours
(JavaScript `Math.round` rounds half toward positive infinity, i.e.
`⌊x + 1/2⌋`, which on the nonnegative inputs here is
`⌊(2m + 30) / 60⌋`), then `parseFloat(….toFixed(1))`, which is the
identity on exact multiples of 0.5. -/
def roundToHalf (m : Nat) : ℚ := ((2 * m + 30) / 60 : Nat) / 2

/-- Embeds `TimeService.calculateLeaveHours`
(src/services/timeService.ts lines 235-282).  `none` models an empty
start/end string (the `if (!startStr || !endStr) return 0` guard); a
span with `e ≤ s` returns 0 (`if (e <= s) return 0`); otherwise the
day-walk loop accumulates minutes and the total is rounded to the
nearest half hour.  The fuel passed to the loop is the exact number of
calendar days the source's while loop visits, namely one per day from
the day of `s` through the day of `e - 1`; `calcLoop_fuel_congr` proves
that any larger fuel yields the same value, so the loop is not cut
short. -/
def calculateLeaveHours (startStr endStr : Option Nat) (holidays : List Holiday) : ℚ :=
  match startStr, endStr with
  | some s, some e =>
      if e ≤ s then 0
      else roundToHalf (calcLoop s e holidays ((e - 1) / 1440 - s / 1440 + 1) s)
  | _, _ => 0

/-- The status of a leave or overtime request (`types.ts`). -/
inductive Status where
  | pending
  | approved
  | rejected
  | cancelled
deriving DecidableEq, Repr

/-- A leave request (`types.ts` `LeaveRequest`), restricted to the
fields the holiday-recalculation sweep reads or writes. -/
structure LeaveRequest where
  id : Nat
  start : Option Nat
  «end» : Option Nat
  hours : ℚ
  status : Status
deriving DecidableEq, Repr

/-- An overtime request (`types.ts` `OvertimeRequest`), restricted to
the fields the claims touch. -/
structure OvertimeRequest where
  id : Nat
  start : Option Nat
  «end» : Option Nat
  hours : ℚ
  status : Status
deriving DecidableEq, Repr

/-- The persisted application state (`storageService` `AppData`),
restricted to the collections the holiday mutations touch. -/
structure AppData where
  leaves : List LeaveRequest
  overtimes : List OvertimeRequest
  holidays : List Holiday
deriving DecidableEq, Repr

namespace StorageService

/-- Embeds the recalculation performed on one leave request inside the
`forEach` sweep of `StorageService.addHoliday` / `removeHoliday`
(src/unnamed/part_003 lines 199-203 and 214-218): a request whose
status is not `cancelled` and not `rejected` gets its `hours` field
recomputed from its own stored span against the given calendar; other
requests are left untouched. -/
def recalcLeave (holidays : List Holiday) (l : LeaveRequest) : LeaveRequest :=
  if l.status ≠ Status.cancelled ∧ l.status ≠ Status.rejected then
    { l with hours := calculateLeaveHours l.start l.«end» holidays }
  else l

/-- Embeds `StorageService.addHoliday` (src/unnamed/part_003 lines
193-206): push the new holiday onto the calendar, then sweep over
`data.leaves` recomputing the hours of every non-cancelled,
non-rejected leave request against the updated calendar.  The
`data.overtimes` collection is not visited by the source. -/
def addHoliday (h : Holiday) (data : AppData) : AppData :=
  let holidays := data.holidays ++ [h]
  { data with
    holidays := holidays
    leaves := data.leaves.map (recalcLeave holidays) }

/-- Embeds `StorageService.removeHoliday` (src/unnamed/part_003 lines
208-221): drop every holiday whose `id` equals the given one
(`data.holidays.filter(h => h.id !== id)`), then sweep over
`data.leaves` exactly as in `addHoliday`.  The `data.overtimes`
collection is not visited by the source. -/
def removeHoliday (i : Nat) (data : AppData) : AppData :=
  let holidays := data.holidays.filter (fun h => h.id != i)
  { data with
    holidays := holidays
    leaves := data.leaves.map (recalcLeave holidays) }

/-- Embeds `StorageService.addOvertime` (src/unnamed/part_003 lines
139-143): the new request is prepended (`unshift`) to the stored
overtime list with the fields given by the caller. -/
def addOvertime (ot : OvertimeRequest) (data : AppData) : AppData :=
  { data with overtimes := ot :: data.overtimes }

end StorageService

/-- Embeds the `calculatedOTHours` memo of
`src/components/EmployeeDashboard.tsx` lines 238-245: missing start or
end dates give 0; a non-positive elapsed time
(`diffMs <= 0`) gives 0; otherwise the raw elapsed time is converted
to hours and rounded to one decimal place
(`parseFloat((diffMs / 3600000).toFixed(1))`).  At the form's minute
granularity, `m` elapsed minutes are `m / 6` tenths of an hour, and the
rounding is to the nearest tenth, half up (`(m + 3) / 6` tenths); the
binary-float ties of `toFixed` arise only at odd multiples of 3 minutes
and round up in the observed engine (e.g. 3 minutes displays 0.1).
No holiday calendar, work window, lunch window, or weekday information
enters the computation. -/
def calculatedOTHours (startStr endStr : Option Nat) : ℚ :=
  match startStr, endStr with
  | some s, some e =>
      if e ≤ s then 0
      else ((e - s + 3) / 6 : Nat) / 10
  | _, _ => 0

/-- Embeds the overtime submission handler of
`src/components/EmployeeDashboard.tsx` lines 580-585: the new request
is stored with `hours := calculatedOTHours` of the entered span and
status `pending` via `StorageService.addOvertime`. -/
def submitOvertime (i : Nat) (startStr endStr : Option Nat) (data : AppData) : AppData :=
  StorageService.addOvertime
    { id := i
      start := startStr
      «end» := endStr
      hours := calculatedOTHours startStr endStr
      status := Status.pending }
    data

/-! Concrete sample inputs used by counterexamples and witnesses. -/

/-- A sample holiday on an unrelated calendar day (day 100). -/
def h0 : Holiday := { id := 7, date := 100 }

/-- A sample pending overtime request spanning the full work window of
day 4 (Monday 1970-01-05), with a stored hours value of 10. -/
def ot0 : OvertimeRequest :=
  { id := 1
    start := some (4 * 1440 + 510)
    «end» := some (4 * 1440 + 1050)
    hours := 10
    status := Status.pending }

/-- A sample state holding only the overtime request `ot0`. -/
def data0 : AppData := { leaves := [], overtimes := [ot0], holidays := [] }

/-- A sample pending leave request spanning the full work window of
day 4 (Monday 1970-01-05). -/
def l1 : LeaveRequest :=
  { id := 2
    start := some (4 * 1440 + 510)
    «end» := some (4 * 1440 + 1050)
    hours := 0
    status := Status.pending }

/-- A sample state holding only the leave request `l1`. -/
def data1 : AppData := { leaves := [l1], overtimes := [], holidays := [] }

/-! Basic lemmas about the day-walk loop. -/

/-- Once `current` has passed the end of the span the loop contributes
nothing, whatever fuel is left. -/
theorem calcLoop_of_le (s e : Nat) (hs : List Holiday) (fuel current : Nat)
    (h : e ≤ current) : calcLoop s e hs fuel current = 0 := by
  cases fuel with
  | zero => rfl
  | succ n => simp [calcLoop, Nat.not_lt.mpr h]

/-- Fuel congruence: any two fuels that each cover one iteration per
calendar day remaining in the span compute the same loop value — the
while loop halts by its guard, not by fuel exhaustion. -/
theorem calcLoop_fuel_congr (s e : Nat) (hs : List Holiday) :
    ∀ fuel₁ fuel₂ current,
      (e - 1) / 1440 + 1 ≤ current / 1440 + fuel₁ →
      (e - 1) / 1440 + 1 ≤ current / 1440 + fuel₂ →
      calcLoop s e hs fuel₁ current = calcLoop s e hs fuel₂ current := by
  intro fuel₁
  induction fuel₁ with
  | zero =>
      intro fuel₂ current h1 h2
      have he : e ≤ current := by omega
      rw [calcLoop_of_le s e hs _ _ he, calcLoop_of_le s e hs _ _ he]
  | succ n ih =>
      intro fuel₂ current h1 h2
      by_cases hlt : current < e
      · have hle : current / 1440 ≤ (e - 1) / 1440 := by
          apply Nat.div_le_div_right; omega
        obtain ⟨m, rfl⟩ : ∃ m, fuel₂ = m + 1 := ⟨fuel₂ - 1, by omega⟩
        simp only [calcLoop, if_pos hlt]
        congr 1
        have hnext : (current / 1440 + 1) * 1440 / 1440 = current / 1440 + 1 :=
          Nat.mul_div_cancel _ (by norm_num)
        apply ih
        · rw [hnext]; omega
        · rw [hnext]; omega
      · rw [calcLoop_of_le s e hs _ _ (by omega), calcLoop_of_le s e hs _ _ (by omega)]

/-- Closed form of the loop: with enough fuel it is the sum of the
per-day contributions of the consecutive calendar days from the day of
`current` through the day of `e - 1`. -/
theorem calcLoop_eq_sum (s e : Nat) (hs : List Holiday) :
    ∀ n current fuel, current < e → (e - 1) / 1440 = current / 1440 + n → n < fuel →
      calcLoop s e hs fuel current =
        ∑ k ∈ Finset.range (n + 1), dayMinutes s e hs (current / 1440 + k) := by
  intro n
  induction n with
  | zero =>
      intro current fuel hlt hday hfuel
      obtain ⟨m, rfl⟩ : ∃ m, fuel = m + 1 := ⟨fuel - 1, by omega⟩
      simp only [calcLoop, if_pos hlt]
      have hstop : e ≤ (current / 1440 + 1) * 1440 := by omega
      rw [calcLoop_of_le s e hs _ _ hstop]
      simp
  | succ n ih =>
      intro current fuel hlt hday hfuel
      obtain ⟨m, rfl⟩ : ∃ m, fuel = m + 1 := ⟨fuel - 1, by omega⟩
      simp only [calcLoop, if_pos hlt]
      have hnext : (current / 1440 + 1) * 1440 / 1440 = current / 1440 + 1 :=
        Nat.mul_div_cancel _ (by norm_num)
      have hlt' : (current / 1440 + 1) * 1440 < e := by omega
      rw [ih ((current / 1440 + 1) * 1440) m hlt' (by omega) (by omega)]
      rw [Finset.sum_range_succ' (fun k => dayMinutes s e hs (current / 1440 + k)) (n + 1)]
      simp only [hnext, Nat.add_zero]
      rw [Nat.add_comm]
      congr 1
      apply Finset.sum_congr rfl
      intro k _
      congr 1
      omega

/-- Unfolds `calculateLeaveHours` on a forward span into the rounded
sum of per-day contributions. -/
theorem calculateLeaveHours_eq_sum (s e : Nat) (hs : List Holiday) (h : s < e) :
    calculateLeaveHours (some s) (some e) hs =
      roundToHalf
        (∑ k ∈ Finset.range ((e - 1) / 1440 - s / 1440 + 1),
          dayMinutes s e hs (s / 1440 + k)) := by
  have hle : s / 1440 ≤ (e - 1) / 1440 := Nat.div_le_div_right (by omega)
  simp only [calculateLeaveHours, if_neg (by omega : ¬ e ≤ s)]
  rw [calcLoop_eq_sum s e hs ((e - 1) / 1440 - s / 1440) s _ h (by omega) (by omega)]

/-- A day flagged non-working contributes nothing. -/
theorem dayMinutes_of_holi (s e : Nat) (hs : List Holiday) (d : Nat)
    (h : dayIsHoli hs d = true) : dayMinutes s e hs d = 0 := by
  simp [dayMinutes, h]

/-- A working day fully covered by the span (the span starts at or
before this day's 08:30 and ends at or after its 17:30) contributes
the full workday: 540 in-window minutes minus the 60-minute lunch. -/
theorem dayMinutes_full (s e : Nat) (hs : List Holiday) (d : Nat)
    (h : dayIsHoli hs d = false)
    (h1 : s ≤ d * 1440 + 510) (h2 : d * 1440 + 1050 ≤ e) :
    dayMinutes s e hs d = 480 := by
  simp only [dayMinutes, h, Bool.false_eq_true, if_false]
  split_ifs <;> omega

/-- In the empty calendar only the weekend test decides a day. -/
theorem dayIsHoli_nil (d : Nat) :
    dayIsHoli [] d = (dayOfWeek d == 0 || dayOfWeek d == 6) := by
  simp [dayIsHoli]

/-- Enlarging the holiday list keeps a day non-working. -/
theorem dayIsHoli_append (hs : List Holiday) (h : Holiday) (d : Nat)
    (hd : dayIsHoli hs d = true) : dayIsHoli (hs ++ [h]) d = true := by
  simp only [dayIsHoli, List.any_append, Bool.or_eq_true] at hd ⊢
  tauto

/-- A day non-working in a filtered calendar is non-working in the
original calendar. -/
theorem dayIsHoli_filter (hs : List Holiday) (p : Holiday → Bool) (d : Nat)
    (hd : dayIsHoli (hs.filter p) d = true) : dayIsHoli hs d = true := by
  simp only [dayIsHoli, List.any_eq_true, Bool.or_eq_true] at hd ⊢
  rcases hd with (⟨x, hx, hdx⟩ | h) | h
  · exact Or.inl (Or.inl ⟨x, (List.mem_filter.mp hx).1, hdx⟩)
  · exact Or.inl (Or.inr h)
  · exact Or.inr h

/-- Pointwise antitonicity of a day's contribution in the calendar:
turning more days into holidays can only remove billable minutes. -/
theorem dayMinutes_anti (s e : Nat) (hs hs' : List Holiday) (d : Nat)
    (hsub : dayIsHoli hs d = true → dayIsHoli hs' d = true) :
    dayMinutes s e hs' d ≤ dayMinutes s e hs d := by
  by_cases h' : dayIsHoli hs' d = true
  · rw [dayMinutes_of_holi _ _ _ _ h']
    exact Nat.zero_le _
  · have h : dayIsHoli hs d = false := by
      cases hh : dayIsHoli hs d
      · rfl
      · exact absurd (hsub hh) h'
    have h'' : dayIsHoli hs' d = false := by
      cases hh : dayIsHoli hs' d
      · rfl
      · exact absurd hh h'
    simp only [dayMinutes, h, h'', Bool.false_eq_true, if_false]
    exact Nat.le_refl _

/-- Antitonicity of the whole day-walk loop in the calendar. -/
theorem calcLoop_anti (s e : Nat) (hs hs' : List Holiday)
    (hsub : ∀ d, dayIsHoli hs d = true → dayIsHoli hs' d = true) :
    ∀ fuel current, calcLoop s e hs' fuel current ≤ calcLoop s e hs fuel current := by
  intro fuel
  induction fuel with
  | zero => intro current; exact Nat.le_refl _
  | succ n ih =>
      intro current
      by_cases hlt : current < e
      · simp only [calcLoop, if_pos hlt]
        exact Nat.add_le_add (dayMinutes_anti _ _ _ _ _ (hsub _)) (ih _)
      · simp only [calcLoop, if_neg hlt]
        exact Nat.le_refl _

/-- Monotonicity of the final half-hour rounding. -/
theorem roundToHalf_mono {m m' : Nat} (h : m ≤ m') : roundToHalf m ≤ roundToHalf m' := by
  unfold roundToHalf
  have h1 : (2 * m + 30) / 60 ≤ (2 * m' + 30) / 60 := Nat.div_le_div_right (by omega)
  have h2 : (((2 * m + 30) / 60 : Nat) : ℚ) ≤ (((2 * m' + 30) / 60 : Nat) : ℚ) := by
    exact_mod_cast h1
  linarith

/-- Antitonicity of the engine in the calendar, for any inputs. -/
theorem calculateLeaveHours_anti (a b : Option Nat) (hs hs' : List Holiday)
    (hsub : ∀ d, dayIsHoli hs d = true → dayIsHoli hs' d = true) :
    calculateLeaveHours a b hs' ≤ calculateLeaveHours a b hs := by
  match a, b with
  | some s, some e =>
      by_cases h : e ≤ s
      · simp [calculateLeaveHours, if_pos h]
      · simp only [calculateLeaveHours, if_neg h]
        exact roundToHalf_mono (calcLoop_anti s e hs hs' hsub _ _)
  | none, none => exact le_refl _
  | none, some _ => exact le_refl _
  | some _, none => exact le_refl _

/-- Claim C4: for every span whose end timestamp is less than or equal
to its start timestamp, and for every holiday set, `calculateLeaveHours`
returns 0 (the `if (e <= s) return 0` guard; no error is raised). -/
theorem calculateLeaveHours_end_le_start (s e : Nat) (hs : List Holiday)
    (h : e ≤ s) : calculateLeaveHours (some s) (some e) hs = 0 := by
  simp [calculateLeaveHours, if_pos h]

/-- Witness for C4 at the concrete reversed span 5 → 3. -/
theorem calculateLeaveHours_end_le_start_witness :
    calculateLeaveHours (some 5) (some 3) [] = 0 :=
  calculateLeaveHours_end_le_start 5 3 [] (by decide)

/-- Claim C10: when either the start string or the end string passed to
`calculateLeaveHours` is empty (modelled by `none`), the function
returns 0 rather than raising an error, for every holiday set. -/
theorem calculateLeaveHours_empty_string (a b : Option Nat) (hs : List Holiday) :
    calculateLeaveHours none b hs = 0 ∧ calculateLeaveHours a none hs = 0 := by
  constructor
  · cases b <;> rfl
  · cases a <;> rfl

/-- Claim C3: for every pair of inputs and every holiday set, the number
returned by `calculateLeaveHours` is greater than or equal to 0 and is
an exact multiple of 0.5 (it equals `k / 2` for a natural `k`). -/
theorem calculateLeaveHours_nonneg_halfStep (a b : Option Nat) (hs : List Holiday) :
    0 ≤ calculateLeaveHours a b hs ∧
      ∃ k : ℕ, calculateLeaveHours a b hs = (k : ℚ) / 2 := by
  have hk : ∃ k : ℕ, calculateLeaveHours a b hs = (k : ℚ) / 2 := by
    match a, b with
    | some s, some e =>
        by_cases h : e ≤ s
        · exact ⟨0, by simp [calculateLeaveHours, if_pos h]⟩
        · refine ⟨(2 * calcLoop s e hs ((e - 1) / 1440 - s / 1440 + 1) s + 30) / 60, ?_⟩
          simp [calculateLeaveHours, if_neg h, roundToHalf]
    | none, none => exact ⟨0, by norm_num [calculateLeaveHours]⟩
    | none, some _ => exact ⟨0, by norm_num [calculateLeaveHours]⟩
    | some _, none => exact ⟨0, by norm_num [calculateLeaveHours]⟩
  obtain ⟨k, hkeq⟩ := hk
  refine ⟨?_, ⟨k, hkeq⟩⟩
  rw [hkeq]
  positivity

/-- Claim C2: every span contained in one single calendar day that is a
Saturday, a Sunday, or a date present in the holiday calendar yields
exactly 0, for every holiday set.  The day of `s` is `s / 1440` and the
span stays within it exactly when `e ≤ (s / 1440 + 1) * 1440`. -/
theorem calculateLeaveHours_nonworking_single_day (s e : Nat) (hs : List Holiday)
    (hday : dayIsHoli hs (s / 1440) = true)
    (hspan : e ≤ (s / 1440 + 1) * 1440) :
    calculateLeaveHours (some s) (some e) hs = 0 := by
  by_cases h : e ≤ s
  · simp [calculateLeaveHours, if_pos h]
  · have hlt : s < e := by omega
    rw [calculateLeaveHours_eq_sum s e hs hlt]
    have hn : (e - 1) / 1440 - s / 1440 = 0 := by omega
    rw [hn, Finset.sum_range_one, Nat.add_zero, dayMinutes_of_holi _ _ _ _ hday]
    norm_num [roundToHalf]

/-- Witness for C2: a one-hour span inside day 5 (Tuesday 1970-01-06)
while day 5 sits in the holiday calendar. -/
theorem calculateLeaveHours_nonworking_single_day_witness :
    calculateLeaveHours (some (5 * 1440 + 600)) (some (5 * 1440 + 660))
      [{ id := 1, date := 5 }] = 0 :=
  calculateLeaveHours_nonworking_single_day _ _ _ (by decide) (by decide)

/-- Claim C5: a span of [08:00, 18:00) on any single working weekday
(not a Saturday, Sunday, or holiday date) yields exactly 8.0 hours:
both ends are clamped to the 08:30–17:30 work window and the lunch
hour is subtracted, so time outside the work window is never billed. -/
theorem calculateLeaveHours_clamped_workday (d : Nat) (hs : List Holiday)
    (h : dayIsHoli hs d = false) :
    calculateLeaveHours (some (d * 1440 + 480)) (some (d * 1440 + 1080)) hs = 8 := by
  have hlt : d * 1440 + 480 < d * 1440 + 1080 := by omega
  rw [calculateLeaveHours_eq_sum _ _ hs hlt]
  have h1 : (d * 1440 + 480) / 1440 = d := by omega
  have h2 : (d * 1440 + 1080 - 1) / 1440 = d := by omega
  rw [h1, h2, Nat.sub_self, Finset.sum_range_one]
  simp only [Nat.add_zero]
  rw [dayMinutes_full _ _ _ _ h (by omega) (by omega)]
  norm_num [roundToHalf]

/-- Witness for C5 on day 4 (Monday 1970-01-05) with an empty holiday
calendar. -/
theorem calculateLeaveHours_clamped_workday_witness :
    calculateLeaveHours (some (4 * 1440 + 480)) (some (4 * 1440 + 1080)) [] = 8 :=
  calculateLeaveHours_clamped_workday 4 [] (by decide)

/-- Claim C6: a span from any Friday 08:30 to the following Monday
17:30 with an empty holiday set yields exactly 16.0 hours — 8 for the
Friday, 8 for the Monday, and nothing for the weekend in between. -/
theorem calculateLeaveHours_friday_to_monday (f : Nat) (hf : dayOfWeek f = 5) :
    calculateLeaveHours (some (f * 1440 + 510)) (some ((f + 3) * 1440 + 1050)) [] = 16 := by
  have hlt : f * 1440 + 510 < (f + 3) * 1440 + 1050 := by omega
  rw [calculateLeaveHours_eq_sum _ _ [] hlt]
  have h1 : (f * 1440 + 510) / 1440 = f := by omega
  have h2 : ((f + 3) * 1440 + 1050 - 1) / 1440 = f + 3 := by omega
  rw [h1, h2]
  have h3 : f + 3 - f + 1 = 4 := by omega
  rw [h3, Finset.sum_range_succ, Finset.sum_range_succ, Finset.sum_range_succ,
    Finset.sum_range_one]
  have hwf : dayIsHoli [] f = false := by
    rw [dayIsHoli_nil, hf]; rfl
  have hwsat : dayIsHoli [] (f + 1) = true := by
    have : dayOfWeek (f + 1) = 6 := by simp only [dayOfWeek] at hf ⊢; omega
    rw [dayIsHoli_nil, this]; rfl
  have hwsun : dayIsHoli [] (f + 2) = true := by
    have : dayOfWeek (f + 2) = 0 := by simp only [dayOfWeek] at hf ⊢; omega
    rw [dayIsHoli_nil, this]; rfl
  have hwmon : dayIsHoli [] (f + 3) = false := by
    have : dayOfWeek (f + 3) = 1 := by simp only [dayOfWeek] at hf ⊢; omega
    rw [dayIsHoli_nil, this]; rfl
  simp only [Nat.add_zero]
  rw [dayMinutes_full _ _ _ _ hwf (by omega) (by omega),
    dayMinutes_of_holi _ _ _ _ hwsat, dayMinutes_of_holi _ _ _ _ hwsun,
    dayMinutes_full _ _ _ _ hwmon (by omega) (by omega)]
  norm_num [roundToHalf]

/-- Witness for C6 with the concrete Friday 1970-01-02 (day index 1). -/
theorem calculateLeaveHours_friday_to_monday_witness :
    calculateLeaveHours (some (1 * 1440 + 510)) (some ((1 + 3) * 1440 + 1050)) [] = 16 :=
  calculateLeaveHours_friday_to_monday 1 (by decide)

/-- Claim C7: the engine is monotone in the holiday calendar — pushing
one more holiday onto the calendar (as `addHoliday` does) never
increases the result, and removing the holidays carrying a given id (as
`removeHoliday` does) never decreases it, for every span and calendar. -/
theorem calculateLeaveHours_holiday_monotone (a b : Option Nat) (hs : List Holiday)
    (h : Holiday) (i : Nat) :
    calculateLeaveHours a b (hs ++ [h]) ≤ calculateLeaveHours a b hs ∧
      calculateLeaveHours a b hs ≤
        calculateLeaveHours a b (hs.filter (fun x => x.id != i)) := by
  constructor
  · exact calculateLeaveHours_anti a b hs (hs ++ [h]) (dayIsHoli_append hs h)
  · exact calculateLeaveHours_anti a b (hs.filter (fun x => x.id != i)) hs
      (fun d => dayIsHoli_filter hs _ d)

/-- Claim C8: the day-by-day walk terminates and yields the defined
result — with one fuel unit per calendar day spanned (the walk strictly
advances one day per iteration) the loop already reaches its final
value, any larger iteration budget computes the same value, and the
engine's result is exactly the rounded loop total. -/
theorem calculateLeaveHours_terminates_bounded (s e : Nat) (hs : List Holiday)
    (fuel : Nat) (h : s < e) (hfuel : (e - 1) / 1440 - s / 1440 + 1 ≤ fuel) :
    calcLoop s e hs fuel s = calcLoop s e hs ((e - 1) / 1440 - s / 1440 + 1) s ∧
      calculateLeaveHours (some s) (some e) hs = roundToHalf (calcLoop s e hs fuel s) := by
  have hle : s / 1440 ≤ (e - 1) / 1440 := Nat.div_le_div_right (by omega)
  have hc := calcLoop_fuel_congr s e hs fuel ((e - 1) / 1440 - s / 1440 + 1) s
    (by omega) (by omega)
  refine ⟨hc, ?_⟩
  simp only [calculateLeaveHours, if_neg (by omega : ¬ e ≤ s)]
  rw [hc]

/-- Witness for C8: a four-day span (Friday 08:30 of day 1 to Monday
17:30 of day 4) with a generous iteration budget of 10. -/
theorem calculateLeaveHours_terminates_bounded_witness :
    calcLoop (1 * 1440 + 510) (4 * 1440 + 1050) [] 10 (1 * 1440 + 510) =
        calcLoop (1 * 1440 + 510) (4 * 1440 + 1050) []
          ((4 * 1440 + 1050 - 1) / 1440 - (1 * 1440 + 510) / 1440 + 1) (1 * 1440 + 510) ∧
      calculateLeaveHours (some (1 * 1440 + 510)) (some (4 * 1440 + 1050)) [] =
        roundToHalf (calcLoop (1 * 1440 + 510) (4 * 1440 + 1050) [] 10 (1 * 1440 + 510)) :=
  calculateLeaveHours_terminates_bounded _ _ [] 10 (by decide) (by decide)

/-- Claim C1 counterexample: `addHoliday` leaves a pending overtime
request's stored hours untouched even though the engine, applied to
that request's own span and the updated calendar, yields a different
value (8 instead of the stored 10) — so holiday mutations do not
recompute overtime requests as the claim states. -/
theorem addHoliday_skips_overtime_counterexample :
    (StorageService.addHoliday h0 data0).overtimes = [ot0] ∧
      ot0.status = Status.pending ∧
      ot0.hours ≠
        calculateLeaveHours ot0.start ot0.«end»
          (StorageService.addHoliday h0 data0).holidays := by
  refine ⟨rfl, rfl, ?_⟩
  have h8 : calculateLeaveHours (some (4 * 1440 + 510)) (some (4 * 1440 + 1050)) [h0] = 8 := by
    have hlt : 4 * 1440 + 510 < 4 * 1440 + 1050 := by norm_num
    rw [calculateLeaveHours_eq_sum _ _ _ hlt]
    have h1 : (4 * 1440 + 1050 - 1) / 1440 - (4 * 1440 + 510) / 1440 + 1 = 1 := by norm_num
    have h2 : (4 * 1440 + 510) / 1440 = 4 := by norm_num
    rw [h1, h2, Finset.sum_range_one, Nat.add_zero,
      dayMinutes_full _ _ _ _ (by decide) (by norm_num) (by norm_num)]
    norm_num [roundToHalf]
  show ot0.hours ≠ calculateLeaveHours (some (4 * 1440 + 510)) (some (4 * 1440 + 1050)) [h0]
  rw [h8]
  show (10 : ℚ) ≠ 8
  norm_num

/-- Claim C1 as amended: on every holiday add and every holiday remove
the request store recomputes, via the engine and against the updated
calendar, the hours of every leave request whose status is not
cancelled and not rejected, and persists the value — but the overtime
requests are never touched by either mutation. -/
theorem holidayMutation_recalculatesOnlyLeaves (h : Holiday) (i : Nat) (data : AppData) :
    ((StorageService.addHoliday h data).overtimes = data.overtimes ∧
      (StorageService.removeHoliday i data).overtimes = data.overtimes) ∧
    ∀ l ∈ data.leaves, l.status ≠ Status.cancelled → l.status ≠ Status.rejected →
      (∃ l' ∈ (StorageService.addHoliday h data).leaves,
        l'.id = l.id ∧ l'.status = l.status ∧
          l'.hours = calculateLeaveHours l.start l.«end» (data.holidays ++ [h])) ∧
      (∃ l' ∈ (StorageService.removeHoliday i data).leaves,
        l'.id = l.id ∧ l'.status = l.status ∧
          l'.hours = calculateLeaveHours l.start l.«end»
            (data.holidays.filter (fun x => x.id != i))) := by
  refine ⟨⟨rfl, rfl⟩, ?_⟩
  intro l hl h1 h2
  constructor
  · refine ⟨StorageService.recalcLeave (data.holidays ++ [h]) l,
      List.mem_map_of_mem _ hl, ?_⟩
    simp [StorageService.recalcLeave, h1, h2]
  · refine ⟨StorageService.recalcLeave (data.holidays.filter (fun x => x.id != i)) l,
      List.mem_map_of_mem _ hl, ?_⟩
    simp [StorageService.recalcLeave, h1, h2]

/-- Witness for the amended C1: the pending leave `l1` of `data1` is
recomputed by `addHoliday h0` against the updated calendar. -/
theorem holidayMutation_recalculatesOnlyLeaves_witness :
    ∃ l' ∈ (StorageService.addHoliday h0 data1).leaves,
      l'.id = l1.id ∧ l'.status = l1.status ∧
        l'.hours = calculateLeaveHours l1.start l1.«end» (data1.holidays ++ [h0]) :=
  (((holidayMutation_recalculatesOnlyLeaves h0 3 data1).2 l1
    (by simp [data1]) (by decide) (by decide)).1)

/-- Claim C9: a newly submitted overtime request is stored with hours
equal to the raw elapsed time between the entered start and end,
rounded to one decimal place: the hours are exactly
`calculatedOTHours`, which returns 0 on a non-positive elapsed time,
always yields a multiple of 0.1, consults no holiday calendar, work
window, or weekday, and can produce values (such as 1.1 for a
66-minute span) that are not multiples of 0.5 — so the leave-hours
engine is not what computes overtime hours. -/
theorem overtime_hours_raw_elapsed :
    (∀ (i : Nat) (a b : Option Nat) (data : AppData),
      ((submitOvertime i a b data).overtimes.head?).map OvertimeRequest.hours =
        some (calculatedOTHours a b)) ∧
    (∀ s e : Nat, e ≤ s → calculatedOTHours (some s) (some e) = 0) ∧
    (∀ a b : Option Nat, ∃ k : ℕ, calculatedOTHours a b = (k : ℚ) / 10) ∧
    (¬ ∃ k : ℕ, calculatedOTHours (some 0) (some 66) = (k : ℚ) / 2) := by
  refine ⟨fun i a b data => rfl, fun s e h => by simp [calculatedOTHours, if_pos h], ?_, ?_⟩
  · intro a b
    match a, b with
    | some s, some e =>
        by_cases h : e ≤ s
        · exact ⟨0, by simp [calculatedOTHours, if_pos h]⟩
        · exact ⟨(e - s + 3) / 6, by simp [calculatedOTHours, if_neg h]⟩
    | none, none => exact ⟨0, by norm_num [calculatedOTHours]⟩
    | none, some _ => exact ⟨0, by norm_num [calculatedOTHours]⟩
    | some _, none => exact ⟨0, by norm_num [calculatedOTHours]⟩
  · rintro ⟨k, hk⟩
    have h11 : calculatedOTHours (some 0) (some 66) = (11 : ℚ) / 10 := by
      norm_num [calculatedOTHours]
    rw [h11] at hk
    have h5 : (5 * k : ℚ) = 11 := by linarith
    have h5' : 5 * k = 11 := by exact_mod_cast h5
    omega

/-- Witness for C9 at a reversed overtime span (end before start). -/
theorem overtime_hours_raw_elapsed_witness :
    calculatedOTHours (some 500) (some 400) = 0 :=
  overtime_hours_raw_elapsed.2.1 500 400 (by decide)

end HRM
